import Mathlib

/-!
Verification of the Local-RAG system against its specification.

The repository is a React client for a retrieval-augmented-generation
backend.  The backend components (Vector Index, Query Engine, Chat Session
Store, Upload-State Manager, Ingestion Pipeline) are called over HTTP from
the client; their own code is not part of the reviewed source set, so they
are modelled from the specification where a claim needs them.  The
client-side logic (`UploadPage.js`, `ChatPage.js`, `api.js`) is embedded
directly from the source.

Layout: all definitions first, then helper lemmas, then one theorem per
claim (with witnesses and counterexamples next to them).
-/

namespace LocalRAG

/-! ### Generic insertion sort on a boolean order -/

/-- Insert `x` into `l` in front of the first element `y` with `le x y`. -/
def insertBy (le : α → α → Bool) (x : α) : List α → List α
  | [] => [x]
  | y :: ys => if le x y then x :: y :: ys else y :: insertBy le x ys

/-- Insertion sort with respect to the boolean order `le`. -/
def sortBy (le : α → α → Bool) : List α → List α
  | [] => []
  | x :: xs => insertBy le x (sortBy le xs)

/-! ### Vector Index (spec §4.2) -/

/-- Modelled from the spec: one entry of the Vector Index — a (vector,
chunk, metadata) tuple.  `insertTime` is the owning document's insertion
time, used by the tie-break rule of §4.2.  The Vector Index code itself is
not part of the reviewed source set. -/
structure VecEntry where
  docFile : String
  insertTime : Nat
  chunkIndex : Nat
  text : String
  vec : List ℚ
  deriving DecidableEq, Repr

/-- Dot product over rational vectors.  The spec allows cosine similarity
"or equivalent monotonic transform"; over unit-normalised embeddings the
dot product is exactly cosine similarity. -/
def dotQ (u v : List ℚ) : ℚ :=
  (List.zipWith (· * ·) u v).sum

/-- Result-ordering relation of `search` (spec §4.2): higher similarity
first; ties broken by (document insertion time, chunk_index) ascending. -/
def entryLe (q : List ℚ) (a b : VecEntry) : Bool :=
  decide (dotQ q b.vec < dotQ q a.vec) ||
    (decide (dotQ q a.vec = dotQ q b.vec) &&
      (decide (a.insertTime < b.insertTime) ||
        (decide (a.insertTime = b.insertTime) &&
          decide (a.chunkIndex ≤ b.chunkIndex))))

/-- Modelled from the spec: `search(query_vector, k)` returns the ordered
list of entries, descending by similarity with the deterministic
tie-break, truncated to `k`.  (`k` greater than the number of stored
vectors returns all of them, not an error.) -/
def search (q : List ℚ) (k : Nat) (idx : List VecEntry) : List VecEntry :=
  (sortBy (entryLe q) idx).take k

/-- Modelled from the spec: `count()` — total number of stored vectors. -/
def vectorCount (idx : List VecEntry) : Nat :=
  idx.length

/-! ### Document Store, system state, ingestion, deletion (spec §3, §4.1) -/

/-- Modelled from the spec: a Document record of the Document Store,
keyed by filename, with the attributes of §3. -/
structure DocMeta where
  filename : String
  character_count : Nat
  chunk_count : Nat
  page_count : Nat
  processed_at : Nat
  deriving DecidableEq, Repr

/-- Modelled from the spec: server-side storage shared by the Document
Store and Vector Index — document records, original files, processed
artifacts, summary artifacts, and the vector index entries. -/
structure SystemState where
  docs : List DocMeta
  originals : List String
  processed : List String
  summaries : List String
  index : List VecEntry
  deriving DecidableEq, Repr

/-- Number of vectors stored for filename `fn`. -/
def countVec (idx : List VecEntry) (fn : String) : Nat :=
  (idx.filter (fun e => e.docFile == fn)).length

/-- The Document-Store/Vector-Index consistency invariant of spec §3 and
§8: every document record has `count(vectors for D) = D.chunk_count > 0`,
and every vector belongs to some document record. -/
def consistentB (s : SystemState) : Bool :=
  s.docs.all (fun d =>
    decide (0 < d.chunk_count) && (countVec s.index d.filename == d.chunk_count)) &&
  s.index.all (fun e => s.docs.any (fun d => d.filename == e.docFile))

/-- Fixed-size chunking with overlap (config defaults of the API docs:
`max_chunk_size` 512, `chunk_overlap` 50).  Fuel-driven so the recursion
is structural; the fuel is the text length, which suffices because each
step drops at least one character. -/
def chunkCharsAux (step maxSize : Nat) : Nat → List Char → List (List Char)
  | 0, _ => []
  | Nat.succ fuel, cs =>
    if cs.isEmpty then []
    else cs.take maxSize :: chunkCharsAux step maxSize fuel (cs.drop (max 1 step))

/-- Modelled from the spec: the Chunker (§4.1 stage 4) — overlapping
fixed-size segments. -/
def chunkText (maxSize overlap : Nat) (text : List Char) : List String :=
  (chunkCharsAux (maxSize - overlap) maxSize text.length text).map List.asString

def maxChunkSize : Nat := 512

def chunkOverlap : Nat := 50

/-- Build the vector-index entries for the chunks of one document,
numbering chunk indices contiguously from `i`. -/
def buildEntries (fn : String) (now : Nat) (emb : String → List ℚ) :
    Nat → List String → List VecEntry
  | _, [] => []
  | i, c :: cs =>
    ⟨fn, now, i, c, emb c⟩ :: buildEntries fn now emb (i + 1) cs

/-- Error cases of the Ingestion Pipeline relevant to the modelled stages
(spec §4.1): duplicate filename policy and extraction producing no text. -/
inductive IngestError
  | DuplicateFilename
  | ExtractionFailed
  deriving DecidableEq, Repr

/-- Result payload of a successful ingestion (spec §4.1). -/
structure IngestResult where
  chunks_created : Nat
  characters_extracted : Nat
  pages_processed : Nat
  deriving DecidableEq, Repr

/-- Modelled from the spec: the Ingestion Pipeline (§4.1) after text
extraction — chunk the text, embed each chunk, and commit chunks+vectors
to the Vector Index together with the document metadata (stage 6).  A
duplicate filename is rejected (`DuplicateFilename`); extraction that
yields no text fails (`ExtractionFailed`), so a Document is never created
without at least one chunk.  Stages 1–3 and 5 (raw persistence, PDF
extraction, summarization, embedding transport) are collaborators whose
failure aborts before stage 6 and leaves the state unchanged. -/
def ingest (s : SystemState) (fn : String) (text : List Char) (pages now : Nat)
    (emb : String → List ℚ) :
    Except IngestError (SystemState × IngestResult) :=
  if s.docs.any (fun d => d.filename == fn) then
    .error .DuplicateFilename
  else if text.isEmpty then
    .error .ExtractionFailed
  else
    let chunks := chunkText maxChunkSize chunkOverlap text
    let entries := buildEntries fn now emb 0 chunks
    .ok ({ docs := ⟨fn, text.length, chunks.length, pages, now⟩ :: s.docs,
           originals := fn :: s.originals,
           processed := fn :: s.processed,
           summaries := fn :: s.summaries,
           index := entries ++ s.index },
         ⟨chunks.length, text.length, pages⟩)

/-- Remove every occurrence of `fn` from an artifact list. -/
def removeAll (l : List String) (fn : String) : List String :=
  l.filter (fun x => !(x == fn))

/-- Modelled from the spec: `DELETE /documents/{filename}` (triggered by
the client's `deleteDocument` in `api.js`) — removes the document record,
the original file, the processed artifacts, the summary artifact if
present, and all chunks/vectors for that filename; returns the list of
removed item categories. -/
def deleteDocument (s : SystemState) (fn : String) : SystemState × List String :=
  ({ docs := s.docs.filter (fun d => !(d.filename == fn)),
     originals := removeAll s.originals fn,
     processed := removeAll s.processed fn,
     summaries := removeAll s.summaries fn,
     index := s.index.filter (fun e => !(e.docFile == fn)) },
   (if s.index.any (fun e => e.docFile == fn) then ["vector data"] else []) ++
     (if s.originals.contains fn then ["original file"] else []) ++
     (if s.processed.contains fn then ["processed file"] else []) ++
     (if s.summaries.contains fn then ["summary file"] else []))

/-! ### Query Engine (spec §4.3) -/

/-- Error cases of `query` (spec §4.3). -/
inductive QueryError
  | EmptyQuestion
  | LLMUnavailable
  deriving DecidableEq, Repr

/-- Modelled from the spec: failures are reported with an HTTP error
status (§8 scenario; error taxonomy of §7 — input-validation errors are
client errors, provider unavailability a server error). -/
def httpStatusOf : QueryError → Nat
  | .EmptyQuestion => 400
  | .LLMUnavailable => 503

/-- The call made to the LLM Provider: with retrieval context, or with
only the question (spec §4.3). -/
inductive LLMCall
  | withContext (context question : String)
  | plain (question : String)
  deriving DecidableEq, Repr

/-- A source reference attached to an answer (spec §3: source_file,
chunk_index, similarity; §4.3 adds the preview). -/
structure SourceRef where
  source_file : String
  chunk_index : Nat
  similarity : ℚ
  preview : String
  deriving DecidableEq, Repr

/-- Observable effects of one `query` call: whether the Vector Index was
searched, and which call (if any) went to the LLM Provider. -/
structure QueryTrace where
  searchInvoked : Bool
  llmCall : Option LLMCall
  deriving DecidableEq, Repr

/-- Blank/whitespace-only test (the check JS performs as
`!question.trim()`). -/
def isBlank (s : String) : Bool :=
  s.data.all Char.isWhitespace

/-- JavaScript `String.prototype.trim`, embedded on the character list. -/
def jsTrim (s : String) : String :=
  (((s.data.dropWhile Char.isWhitespace).reverse.dropWhile
      Char.isWhitespace).reverse).asString

/-- Context assembly: retained chunks concatenated in similarity order
(spec §4.3). -/
def buildContext (kept : List VecEntry) : String :=
  String.intercalate "\n\n" (kept.map (·.text))

/-- Source attribution for one retained chunk (spec §4.3). -/
def toSource (q : List ℚ) (e : VecEntry) : SourceRef :=
  ⟨e.docFile, e.chunkIndex, dotQ q e.vec, e.text⟩

/-- Modelled from the spec: `query(question, top_k, use_rag)` (§4.3).
A blank/whitespace-only question fails with `EmptyQuestion` before any
retrieval.  With `use_rag` true: embed the question, search, filter by
the similarity threshold, build the context and call the LLM Provider
with (context, question).  With `use_rag` false: call the LLM Provider
with only the question and return empty `sources`.  `llm = none` models
an unavailable LLM Provider. -/
def query (emb : String → List ℚ) (idx : List VecEntry)
    (llm : Option (LLMCall → String)) (threshold : ℚ)
    (question : String) (top_k : Nat) (use_rag : Bool) :
    Except QueryError (String × List SourceRef) × QueryTrace :=
  if isBlank question then
    (.error .EmptyQuestion, ⟨false, none⟩)
  else if use_rag then
    let qv := emb question
    let kept := (search qv top_k idx).filter
      (fun e => decide (threshold ≤ dotQ qv e.vec))
    let call := LLMCall.withContext (buildContext kept) question
    match llm with
    | none => (.error .LLMUnavailable, ⟨true, none⟩)
    | some f => (.ok (f call, kept.map (toSource qv)), ⟨true, some call⟩)
  else
    let call := LLMCall.plain question
    match llm with
    | none => (.error .LLMUnavailable, ⟨false, none⟩)
    | some f => (.ok (f call, []), ⟨false, some call⟩)

/-! ### Chat Session Store (spec §4.6) -/

inductive Role
  | user
  | assistant
  deriving DecidableEq, Repr

/-- A persisted chat message (spec §3). -/
structure ChatMessage where
  id : Nat
  role : Role
  content : String
  sources : List SourceRef
  timestamp : Nat
  deriving DecidableEq, Repr

/-- A persisted chat session (spec §3). -/
structure ChatSession where
  session_id : Nat
  messages : List ChatMessage
  created_at : Nat
  last_updated : Nat
  deriving DecidableEq, Repr

/-- Modelled from the spec: the Chat Session Store with its process-wide
"current" pointer (§4.6, §9). -/
structure ChatStore where
  sessions : List ChatSession
  current : Option Nat
  nextId : Nat
  deriving DecidableEq, Repr

/-- Replace the message list of the first session with the given id
(last-write-wins full snapshot, as the client sends complete message
lists). -/
def replaceFirst (sid : Nat) (msgs : List ChatMessage) (now : Nat) :
    List ChatSession → List ChatSession
  | [] => []
  | s :: ss =>
    if s.session_id == sid then
      { s with messages := msgs, last_updated := now } :: ss
    else
      s :: replaceFirst sid msgs now ss

/-- Modelled from the spec: `save(session_id_or_none, messages[]) →
session_id` (§4.6) — creates a session (and makes it current) when no id
is given, otherwise replaces that session's message snapshot. -/
def saveSession (st : ChatStore) (sid? : Option Nat)
    (msgs : List ChatMessage) (now : Nat) : Nat × ChatStore :=
  match sid? with
  | none =>
    (st.nextId,
     { sessions := ⟨st.nextId, msgs, now, now⟩ :: st.sessions,
       current := some st.nextId,
       nextId := st.nextId + 1 })
  | some sid =>
    (sid, { st with sessions := replaceFirst sid msgs now st.sessions })

def findSession (st : ChatStore) (sid : Nat) : Option ChatSession :=
  st.sessions.find? (fun s => s.session_id == sid)

/-- Modelled from the spec: loading a session returns its ordered message
list (§4.6). -/
def loadMessages (st : ChatStore) (sid : Nat) : Option (List ChatMessage) :=
  (findSession st sid).map (·.messages)

/-- The `message_count` attribute reported for a session (spec §3). -/
def messageCount (st : ChatStore) (sid : Nat) : Option Nat :=
  (findSession st sid).map (·.messages.length)

/-! ### Upload page client state (src/src/pages/UploadPage.js) -/

/-- Status of a tracked file: `pending, processing, completed, error`
(UploadPage.js `addFiles`). -/
inductive FileStatus
  | pending
  | processing
  | completed
  | error
  deriving DecidableEq, Repr

/-- One named processing step with its own status/progress
(UploadPage.js `processingSteps`). -/
structure ProcStep where
  name : String
  status : FileStatus
  progress : Option Nat
  deriving DecidableEq, Repr

/-- The raw browser `File` object held by a tracked file: the upload
payload plus the metadata the page reads from it. -/
structure FilePayload where
  type : String
  lastModified : Nat
  bytes : List Nat
  deriving DecidableEq, Repr

/-- The `result` payload attached to a processed file (`response.data`
of `/api/upload`, as read by UploadPage.js). -/
structure FileResult where
  processing_time : Nat
  chunks_created : Nat
  characters_extracted : Nat
  pages_processed : Nat
  deriving DecidableEq, Repr

/-- The `fileInfo` record UploadPage.js keeps alongside a file: basic
information only, never the payload. -/
structure FileInfo where
  name : String
  size : Nat
  type : String
  lastModified : Nat
  deriving DecidableEq, Repr

/-- A tracked file of the upload page's `files` state (UploadPage.js
`addFiles`). -/
structure TrackedFile where
  id : Nat
  name : String
  size : Nat
  status : FileStatus
  progress : Nat
  error : Option String
  result : Option FileResult
  currentStep : Nat
  processingSteps : List ProcStep
  file : Option FilePayload
  fileInfo : FileInfo
  deriving DecidableEq, Repr

/-- One file of the snapshot sent to `updateUploadState` by
`saveUploadState` (UploadPage.js lines 176–193).  The structure has no
`file` field: the raw `File` object is never part of the snapshot.
`currentStep`/`processingSteps` are optional because restored JSON may
lack them (the restore path guards with `|| 0` and `|| [...]`). -/
structure SavedFile where
  id : Nat
  name : String
  size : Nat
  status : FileStatus
  progress : Nat
  error : Option String
  result : Option FileResult
  currentStep : Option Nat
  processingSteps : Option (List ProcStep)
  fileInfo : FileInfo
  deriving DecidableEq, Repr

/-- The filter used both by `saveUploadState` and by the restore path of
`initializeSecureUploadState`: status is `pending`, `processing` or
`error`. -/
def isActiveStatus (s : FileStatus) : Bool :=
  s == .pending || s == .processing || s == .error

/-- The per-file projection of `saveUploadState` (UploadPage.js lines
176–193): id, name, size, status, progress, error, result, step metadata
and a `fileInfo` record built from the `File` object's metadata with the
source's fallbacks (`'application/pdf'`, `Date.now()`); the `File` object
itself is not saved. -/
def saveProjection (now : Nat) (f : TrackedFile) : SavedFile :=
  { id := f.id
    name := f.name
    size := f.size
    status := f.status
    progress := f.progress
    error := f.error
    result := f.result
    currentStep := some f.currentStep
    processingSteps := some f.processingSteps
    fileInfo :=
      { name := f.name
        size := f.size
        type := (f.file.map (·.type)).getD "application/pdf"
        lastModified := (f.file.map (·.lastModified)).getD now } }

/-- `saveUploadState` (UploadPage.js lines 169–207): keep only files
whose status is pending/processing/error, project away the `File`
object, and send the result (the empty list when nothing qualifies,
which clears the server-side state). -/
def saveUploadState (now : Nat) (files : List TrackedFile) : List SavedFile :=
  (files.filter (fun f => isActiveStatus f.status)).map (saveProjection now)

/-- The default processing-step list substituted on restore
(UploadPage.js lines 108–114). -/
def defaultSteps : List ProcStep :=
  [⟨"文件驗證", .pending, none⟩,
   ⟨"內容提取", .pending, none⟩,
   ⟨"文本分塊", .pending, none⟩,
   ⟨"向量化", .pending, none⟩,
   ⟨"存儲完成", .pending, none⟩]

/-- The per-file restore map of `initializeSecureUploadState`
(UploadPage.js lines 103–116): spread the saved record, set
`file: null` (a restored file has no actual `File` object), default the
step metadata. -/
def restoreFile (f : SavedFile) : TrackedFile :=
  { id := f.id
    name := f.name
    size := f.size
    status := f.status
    progress := f.progress
    error := f.error
    result := f.result
    currentStep := f.currentStep.getD 0
    processingSteps := f.processingSteps.getD defaultSteps
    file := none
    fileInfo := f.fileInfo }

/-- The restore filter+map of `initializeSecureUploadState`
(UploadPage.js lines 101–116): keep pending/processing/error files and
rebuild the tracked records. -/
def restoreActive (resp : List SavedFile) : List TrackedFile :=
  (resp.filter (fun f => isActiveStatus f.status)).map restoreFile

/-- The invalidated-payload reason written by the upload page
(UploadPage.js line 132). -/
def invalidMsg : String :=
  "文件對象已失效，頁面切換後需要重新選擇此文件才能處理。"

/-- The rewrite applied by the upload page's deferred `setFiles` pass
(UploadPage.js lines 127–136): a `pending` file without a `File` object
becomes `error` with the invalidated-payload reason; all other files are
unchanged. -/
def invalidateOne (f : TrackedFile) : TrackedFile :=
  if f.status == .pending && f.file.isNone then
    { f with status := .error, error := some invalidMsg }
  else f

/-- The whole-list invalidation pass (UploadPage.js lines 127–136). -/
def invalidateStale (fs : List TrackedFile) : List TrackedFile :=
  fs.map invalidateOne

/-- The client-side state restoration of `initializeSecureUploadState`:
restore the active files from the `get` response, then invalidate the
payload-less pending ones. -/
def restoreThenInvalidate (resp : List SavedFile) : List TrackedFile :=
  invalidateStale (restoreActive resp)

/-! ### Chat page client state (src/src/pages/ChatPage.js) -/

/-- Message type in the chat UI: `user` or `bot` (ChatPage.js). -/
inductive MsgType
  | user
  | bot
  deriving DecidableEq, Repr

/-- One message of the chat page's `messages` state (ChatPage.js). -/
structure UiMessage where
  id : Nat
  type : MsgType
  content : String
  sources : List SourceRef
  timestamp : Nat
  deriving DecidableEq, Repr

/-- Outcome of the `POST /api/query` request issued by
`handleSendMessage`: a response (whose `answer`/`sources` fields may be
absent) or a request failure. -/
inductive QueryOutcome
  | ok (answer : Option String) (sources : Option (List SourceRef))
  | fail
  deriving DecidableEq, Repr

/-- The chat page state touched by `handleSendMessage`. -/
structure ChatState where
  messages : List UiMessage
  inputValue : String
  isLoading : Bool
  deriving DecidableEq, Repr

/-- Fallback bot text when the response has no answer (ChatPage.js line
200). -/
def fallbackAnswer : String :=
  "抱歉，我無法回答這個問題。"

/-- Fixed bot text appended when the request fails (ChatPage.js line
211). -/
def requestErrorText : String :=
  "抱歉，發生了錯誤。請確保後端服務正在運行。"

/-- JavaScript `x || dflt` on an optional string: the default replaces
both a missing and an empty (falsy) string. -/
def jsOrString (x : Option String) (dflt : String) : String :=
  match x with
  | some s => if s == "" then dflt else s
  | none => dflt

/-- `handleSendMessage` (ChatPage.js lines 177–219).  Guard: blank input
or a request already in flight returns unchanged without issuing a
request (the returned flag records whether a request was issued).
Otherwise the trimmed user message is appended, the request runs, and
one bot message is appended: the response answer (or the fallback text
when the answer is missing/empty) with its sources on success, the fixed
error text on failure.  `finally` clears the loading flag; the input is
cleared on send.  `now` stands for `Date.now()`. -/
def handleSendMessage (st : ChatState) (outcome : QueryOutcome) (now : Nat) :
    ChatState × Bool :=
  if isBlank st.inputValue || st.isLoading then
    (st, false)
  else
    let userMsg : UiMessage := ⟨now, .user, jsTrim st.inputValue, [], now⟩
    match outcome with
    | .ok ans srcs =>
      let botMsg : UiMessage :=
        ⟨now + 1, .bot, jsOrString ans fallbackAnswer, srcs.getD [], now⟩
      ({ messages := st.messages ++ [userMsg, botMsg],
         inputValue := "", isLoading := false }, true)
    | .fail =>
      let botMsg : UiMessage := ⟨now + 1, .bot, requestErrorText, [], now⟩
      ({ messages := st.messages ++ [userMsg, botMsg],
         inputValue := "", isLoading := false }, true)

/-! ### Helper lemmas -/

theorem mem_insertBy (le : α → α → Bool) (x : α) :
    ∀ (l : List α) (y : α), y ∈ insertBy le x l ↔ y = x ∨ y ∈ l := by
  intro l
  induction l with
  | nil => intro y; simp [insertBy]
  | cons z zs ih =>
    intro y
    by_cases h : le x z = true
    · simp [insertBy, h]
    · simp only [insertBy, if_neg h, List.mem_cons, ih]
      tauto

theorem insertBy_perm (le : α → α → Bool) (x : α) :
    ∀ l : List α, (insertBy le x l).Perm (x :: l) := by
  intro l
  induction l with
  | nil => simp [insertBy]
  | cons z zs ih =>
    by_cases h : le x z = true
    · simp [insertBy, h]
    · simp only [insertBy, if_neg h]
      exact (ih.cons z).trans (List.Perm.swap x z zs)

theorem sortBy_perm (le : α → α → Bool) :
    ∀ l : List α, (sortBy le l).Perm l := by
  intro l
  induction l with
  | nil => simp [sortBy]
  | cons x xs ih =>
    exact (insertBy_perm le x (sortBy le xs)).trans (ih.cons x)

theorem pairwise_insertBy (le : α → α → Bool)
    (htot : ∀ a b, le a b = false → le b a = true)
    (htr : ∀ a b c, le a b = true → le b c = true → le a c = true)
    (x : α) :
    ∀ l : List α, l.Pairwise (fun a b => le a b = true) →
      (insertBy le x l).Pairwise (fun a b => le a b = true) := by
  intro l
  induction l with
  | nil => intro _; simp [insertBy]
  | cons z zs ih =>
    intro hp
    rcases List.pairwise_cons.mp hp with ⟨hz, hzs⟩
    by_cases h : le x z = true
    · have hins : insertBy le x (z :: zs) = x :: z :: zs := by
        simp [insertBy, h]
      rw [hins]
      refine List.pairwise_cons.mpr ⟨?_, hp⟩
      intro b hb
      rcases List.mem_cons.mp hb with rfl | hb
      · exact h
      · exact htr x z b h (hz b hb)
    · have hins : insertBy le x (z :: zs) = z :: insertBy le x zs := by
        simp [insertBy, h]
      rw [hins]
      refine List.pairwise_cons.mpr ⟨?_, ih hzs⟩
      intro b hb
      rcases (mem_insertBy le x zs b).mp hb with hbx | hb
      · rw [hbx]
        exact htot x z (Bool.eq_false_iff.mpr h)
      · exact hz b hb

theorem pairwise_sortBy (le : α → α → Bool)
    (htot : ∀ a b, le a b = false → le b a = true)
    (htr : ∀ a b c, le a b = true → le b c = true → le a c = true) :
    ∀ l : List α, (sortBy le l).Pairwise (fun a b => le a b = true) := by
  intro l
  induction l with
  | nil => simp [sortBy]
  | cons x xs ih => exact pairwise_insertBy le htot htr x (sortBy le xs) ih

theorem entryLe_iff (q : List ℚ) (a b : VecEntry) :
    entryLe q a b = true ↔
      dotQ q b.vec < dotQ q a.vec ∨
        (dotQ q a.vec = dotQ q b.vec ∧
          (a.insertTime < b.insertTime ∨
            (a.insertTime = b.insertTime ∧ a.chunkIndex ≤ b.chunkIndex))) := by
  simp [entryLe]

theorem entryLe_total (q : List ℚ) :
    ∀ a b : VecEntry, entryLe q a b = false → entryLe q b a = true := by
  intro a b h
  rw [Bool.eq_false_iff, Ne, entryLe_iff] at h
  rw [entryLe_iff]
  push_neg at h
  obtain ⟨h1, h2⟩ := h
  rcases lt_trichotomy (dotQ q a.vec) (dotQ q b.vec) with hlt | heq | hgt
  · exact Or.inl hlt
  · refine Or.inr ⟨heq.symm, ?_⟩
    obtain ⟨h3, h4⟩ := h2 heq
    omega
  · exact absurd hgt (not_lt.mpr h1)

theorem entryLe_trans (q : List ℚ) :
    ∀ a b c : VecEntry, entryLe q a b = true → entryLe q b c = true →
      entryLe q a c = true := by
  intro a b c hab hbc
  rw [entryLe_iff] at hab hbc ⊢
  rcases hab with hab | ⟨hab, hab2⟩
  · rcases hbc with hbc | ⟨hbc, _⟩
    · exact Or.inl (lt_trans hbc hab)
    · exact Or.inl (hbc ▸ hab)
  · rcases hbc with hbc | ⟨hbc, hbc2⟩
    · exact Or.inl (hab ▸ hbc)
    · exact Or.inr ⟨hab.trans hbc, by omega⟩

theorem mem_sortBy (le : α → α → Bool) (l : List α) (x : α) :
    x ∈ sortBy le l ↔ x ∈ l :=
  (sortBy_perm le l).mem_iff

theorem mem_search (q : List ℚ) (k : Nat) (idx : List VecEntry) (e : VecEntry)
    (h : e ∈ search q k idx) : e ∈ idx :=
  (mem_sortBy (entryLe q) idx e).mp (List.mem_of_mem_take h)

theorem buildEntries_docFile (fn : String) (now : Nat) (emb : String → List ℚ) :
    ∀ (cs : List String) (i : Nat) (e : VecEntry),
      e ∈ buildEntries fn now emb i cs → e.docFile = fn := by
  intro cs
  induction cs with
  | nil =>
    intro i e he
    simp [buildEntries] at he
  | cons c cs ih =>
    intro i e he
    rcases List.mem_cons.mp he with rfl | he
    · rfl
    · exact ih (i + 1) e he

theorem countVec_append (a b : List VecEntry) (fn : String) :
    countVec (a ++ b) fn = countVec a fn + countVec b fn := by
  simp [countVec, List.filter_append]

theorem countVec_buildEntries_self (fn : String) (now : Nat)
    (emb : String → List ℚ) :
    ∀ (cs : List String) (i : Nat),
      countVec (buildEntries fn now emb i cs) fn = cs.length := by
  intro cs
  induction cs with
  | nil =>
    intro i
    simp [buildEntries, countVec]
  | cons c cs ih =>
    intro i
    have h2 := ih (i + 1)
    simp only [countVec] at h2 ⊢
    simp [buildEntries, List.filter_cons, h2]

theorem countVec_buildEntries_other (fn g : String) (now : Nat)
    (emb : String → List ℚ) (hne : g ≠ fn) :
    ∀ (cs : List String) (i : Nat),
      countVec (buildEntries fn now emb i cs) g = 0 := by
  intro cs
  induction cs with
  | nil =>
    intro i
    simp [buildEntries, countVec]
  | cons c cs ih =>
    intro i
    have h2 := ih (i + 1)
    simp only [countVec] at h2 ⊢
    simp [buildEntries, List.filter_cons, h2, Ne.symm hne]

theorem chunkText_ne_nil (maxSize overlap : Nat) (text : List Char)
    (h : text ≠ []) : chunkText maxSize overlap text ≠ [] := by
  cases text with
  | nil => exact absurd rfl h
  | cons c cs =>
    simp [chunkText, chunkCharsAux, List.length_cons]

/-! ### Claim theorems -/

/-- Claim C3: for every query vector `q` and every `k`, the result list of
`search(q, k)` is sorted by descending similarity, ties between equal
similarities are broken by (document insertion time, chunk_index)
ascending, and for fixed index contents repeated calls of `search` with
the same `q` and `k` return the identical ordered list (in this pure
embedding the third part, determinism, is definitional). -/
theorem search_sorted_tiebreak_deterministic (q : List ℚ) (k : Nat)
    (idx : List VecEntry) :
    (search q k idx).Pairwise (fun a b =>
        dotQ q b.vec ≤ dotQ q a.vec ∧
          (dotQ q a.vec = dotQ q b.vec →
            a.insertTime < b.insertTime ∨
              (a.insertTime = b.insertTime ∧ a.chunkIndex ≤ b.chunkIndex))) ∧
      (∀ q' k', q' = q → k' = k → search q' k' idx = search q k idx) := by
  constructor
  · have hp := pairwise_sortBy (entryLe q) (entryLe_total q) (entryLe_trans q) idx
    have hp2 := hp.sublist (List.take_sublist k (sortBy (entryLe q) idx))
    unfold search
    refine hp2.imp (fun {a b} hab => ?_)
    rw [entryLe_iff] at hab
    constructor
    · rcases hab with h | ⟨h, _⟩
      · exact le_of_lt h
      · exact le_of_eq h.symm
    · intro heq
      rcases hab with h | ⟨_, h2⟩
      · rw [heq] at h
        exact absurd h (lt_irrefl _)
      · exact h2
  · intro q' k' hq hk
    rw [hq, hk]

/-- Witness for C3 at a concrete two-entry index. -/
theorem search_sorted_tiebreak_witness :
    (search [1] 2 [⟨"a.pdf", 0, 0, "x", [1]⟩, ⟨"b.pdf", 1, 0, "y", [2]⟩]).Pairwise
        (fun a b =>
          dotQ [1] b.vec ≤ dotQ [1] a.vec ∧
            (dotQ [1] a.vec = dotQ [1] b.vec →
              a.insertTime < b.insertTime ∨
                (a.insertTime = b.insertTime ∧ a.chunkIndex ≤ b.chunkIndex))) ∧
      (∀ q' k', q' = [1] → k' = 2 →
        search q' k' [⟨"a.pdf", 0, 0, "x", [1]⟩, ⟨"b.pdf", 1, 0, "y", [2]⟩] =
          search [1] 2 [⟨"a.pdf", 0, 0, "x", [1]⟩, ⟨"b.pdf", 1, 0, "y", [2]⟩]) :=
  search_sorted_tiebreak_deterministic [1] 2
    [⟨"a.pdf", 0, 0, "x", [1]⟩, ⟨"b.pdf", 1, 0, "y", [2]⟩]

/-- Claim C7: for every query vector `q` and every `k` at least the total
number of stored vectors, `search(q, k)` returns exactly all stored
vectors (as a permutation — the output is the sorted index) and does not
fail. -/
theorem search_k_ge_count_returns_all (q : List ℚ) (k : Nat)
    (idx : List VecEntry) (h : vectorCount idx ≤ k) :
    (search q k idx).Perm idx := by
  unfold search
  have hperm := sortBy_perm (entryLe q) idx
  have hlen : (sortBy (entryLe q) idx).length ≤ k := by
    rw [hperm.length_eq]
    exact h
  rw [List.take_of_length_le hlen]
  exact hperm

/-- Witness for C7: a two-vector index queried with `k = 5`. -/
theorem search_k_ge_count_witness :
    vectorCount [⟨"a.pdf", 0, 0, "x", [1]⟩, ⟨"b.pdf", 1, 0, "y", [2]⟩] ≤ 5 ∧
      (search [1] 5 [⟨"a.pdf", 0, 0, "x", [1]⟩, ⟨"b.pdf", 1, 0, "y", [2]⟩]).Perm
        [⟨"a.pdf", 0, 0, "x", [1]⟩, ⟨"b.pdf", 1, 0, "y", [2]⟩] :=
  ⟨by decide,
   search_k_ge_count_returns_all [1] 5
     [⟨"a.pdf", 0, 0, "x", [1]⟩, ⟨"b.pdf", 1, 0, "y", [2]⟩] (by decide)⟩

/-- Claim C4: a delete of document `D` removes the original file, the
processed artifacts, the summary artifact if present, the document
record, and 100% of `D`'s chunks/vectors from the Vector Index, so that
every subsequent `search` returns no chunk whose source filename is
`D`'s filename. -/
theorem deleteDocument_removes_all (s : SystemState) (fn : String)
    (q : List ℚ) (k : Nat) :
    fn ∉ ((deleteDocument s fn).1).originals ∧
      fn ∉ ((deleteDocument s fn).1).processed ∧
      fn ∉ ((deleteDocument s fn).1).summaries ∧
      (∀ d ∈ ((deleteDocument s fn).1).docs, d.filename ≠ fn) ∧
      countVec ((deleteDocument s fn).1).index fn = 0 ∧
      (∀ e ∈ search q k ((deleteDocument s fn).1).index, e.docFile ≠ fn) := by
  refine ⟨?_, ?_, ?_, ?_, ?_, ?_⟩
  · intro hmem
    rcases List.mem_filter.mp hmem with ⟨_, hkeep⟩
    simp at hkeep
  · intro hmem
    rcases List.mem_filter.mp hmem with ⟨_, hkeep⟩
    simp at hkeep
  · intro hmem
    rcases List.mem_filter.mp hmem with ⟨_, hkeep⟩
    simp at hkeep
  · intro d hd
    rcases List.mem_filter.mp hd with ⟨_, hkeep⟩
    simpa using hkeep
  · rw [countVec, List.length_eq_zero]
    refine List.filter_eq_nil_iff.mpr ?_
    intro e he
    rcases List.mem_filter.mp he with ⟨_, hkeep⟩
    simpa using hkeep
  · intro e he
    have hmem := mem_search q k _ e he
    rcases List.mem_filter.mp hmem with ⟨_, hkeep⟩
    simpa using hkeep

/-- Claim C1: starting from a consistent state, a successful ingestion
keeps the store/index invariant — every Document record has at least one
chunk in the Vector Index and every vector belongs to a Document record
(`consistentB`) — and for the newly ingested document `D` the number of
vectors stored for `D` equals `D.chunk_count = chunks_created` and is
strictly positive. -/
theorem ingest_consistency (s : SystemState) (fn : String) (text : List Char)
    (pages now : Nat) (emb : String → List ℚ) (s' : SystemState)
    (r : IngestResult) (hc : consistentB s = true)
    (h : ingest s fn text pages now emb = .ok (s', r)) :
    consistentB s' = true ∧
      countVec s'.index fn = r.chunks_created ∧
      0 < r.chunks_created ∧
      ∃ d ∈ s'.docs, d.filename = fn ∧ d.chunk_count = countVec s'.index fn := by
  unfold ingest at h
  by_cases hdup : s.docs.any (fun d => d.filename == fn) = true
  · rw [if_pos hdup] at h
    cases h
  · rw [if_neg hdup] at h
    by_cases hempty : text.isEmpty = true
    · rw [if_pos hempty] at h
      cases h
    · rw [if_neg hempty] at h
      rw [Except.ok.injEq, Prod.mk.injEq] at h
      obtain ⟨hs, hr⟩ := h
      subst hs
      subst hr
      rw [consistentB, Bool.and_eq_true, List.all_eq_true, List.all_eq_true] at hc
      obtain ⟨hdocs, hidx⟩ := hc
      have hno : ∀ d ∈ s.docs, (d.filename == fn) = false := by
        intro d hd
        by_contra hne
        rw [Bool.not_eq_false] at hne
        exact hdup (List.any_eq_true.mpr ⟨d, hd, hne⟩)
      have hzero : countVec s.index fn = 0 := by
        rw [countVec, List.length_eq_zero]
        refine List.filter_eq_nil_iff.mpr ?_
        intro e he hbe
        rcases List.any_eq_true.mp (hidx e he) with ⟨d, hd, hdb⟩
        have hd1 : d.filename = e.docFile := by simpa using hdb
        have hd2 : e.docFile = fn := by simpa using hbe
        have := hno d hd
        rw [hd1, hd2] at this
        simp at this
      have htext : text ≠ [] := by
        intro hnil
        rw [hnil] at hempty
        exact hempty rfl
      have hch : chunkText maxChunkSize chunkOverlap text ≠ [] :=
        chunkText_ne_nil maxChunkSize chunkOverlap text htext
      have hposc : 0 < (chunkText maxChunkSize chunkOverlap text).length :=
        List.length_pos.mpr hch
      have hcount :
          countVec (buildEntries fn now emb 0
              (chunkText maxChunkSize chunkOverlap text) ++ s.index) fn =
            (chunkText maxChunkSize chunkOverlap text).length := by
        rw [countVec_append, countVec_buildEntries_self, hzero]
        exact Nat.add_zero _
      refine ⟨?_, ?_, hposc, ?_⟩
      · rw [consistentB, Bool.and_eq_true, List.all_eq_true, List.all_eq_true]
        constructor
        · intro d hd
          rcases List.mem_cons.mp hd with rfl | hd
          · rw [Bool.and_eq_true, decide_eq_true_eq, beq_iff_eq]
            exact ⟨hposc, hcount⟩
          · rw [Bool.and_eq_true]
            have hold := hdocs d hd
            rw [Bool.and_eq_true] at hold
            refine ⟨hold.1, ?_⟩
            have hne : d.filename ≠ fn := by
              have := hno d hd
              simpa using this
            rw [beq_iff_eq, countVec_append,
              countVec_buildEntries_other fn d.filename now emb hne]
            have := hold.2
            rw [beq_iff_eq] at this
            simpa using this
        · intro e he
          rcases List.mem_append.mp he with he | he
          · have hdf := buildEntries_docFile fn now emb _ 0 e he
            refine List.any_eq_true.mpr ⟨_, List.mem_cons_self _ _, ?_⟩
            rw [beq_iff_eq]
            exact hdf.symm
          · rcases List.any_eq_true.mp (hidx e he) with ⟨d, hd, hdb⟩
            exact List.any_eq_true.mpr ⟨d, List.mem_cons_of_mem _ hd, hdb⟩
      · exact hcount
      · exact ⟨_, List.mem_cons_self _ _, rfl, hcount.symm⟩

/-- Witness for C1: ingesting a two-character document into the empty
state. -/
theorem ingest_consistency_witness :
    consistentB ⟨[⟨"a.pdf", 2, 1, 1, 0⟩], ["a.pdf"], ["a.pdf"], ["a.pdf"],
        [⟨"a.pdf", 0, 0, "hi", [1]⟩]⟩ = true ∧
      countVec [⟨"a.pdf", 0, 0, "hi", [1]⟩] "a.pdf" = 1 ∧
      (0 : Nat) < 1 :=
  have h := ingest_consistency ⟨[], [], [], [], []⟩ "a.pdf" ['h', 'i'] 1 0
    (fun _ => [1])
    ⟨[⟨"a.pdf", 2, 1, 1, 0⟩], ["a.pdf"], ["a.pdf"], ["a.pdf"],
      [⟨"a.pdf", 0, 0, "hi", [1]⟩]⟩
    ⟨1, 2, 1⟩ (by decide) rfl
  ⟨h.1, h.2.1, h.2.2.1⟩

/-- Witness for C4 at a concrete one-document state. -/
theorem deleteDocument_removes_witness :
    "a.pdf" ∉ ((deleteDocument
        ⟨[⟨"a.pdf", 2, 1, 1, 0⟩], ["a.pdf"], ["a.pdf"], ["a.pdf"],
          [⟨"a.pdf", 0, 0, "hi", [1]⟩]⟩ "a.pdf").1).originals ∧
      countVec ((deleteDocument
        ⟨[⟨"a.pdf", 2, 1, 1, 0⟩], ["a.pdf"], ["a.pdf"], ["a.pdf"],
          [⟨"a.pdf", 0, 0, "hi", [1]⟩]⟩ "a.pdf").1).index "a.pdf" = 0 :=
  ⟨(deleteDocument_removes_all
      ⟨[⟨"a.pdf", 2, 1, 1, 0⟩], ["a.pdf"], ["a.pdf"], ["a.pdf"],
        [⟨"a.pdf", 0, 0, "hi", [1]⟩]⟩ "a.pdf" [1] 1).1,
   (deleteDocument_removes_all
      ⟨[⟨"a.pdf", 2, 1, 1, 0⟩], ["a.pdf"], ["a.pdf"], ["a.pdf"],
        [⟨"a.pdf", 0, 0, "hi", [1]⟩]⟩ "a.pdf" [1] 1).2.2.2.2.1⟩

/-- Claim C5: for every blank or whitespace-only question, `query` fails
with the `EmptyQuestion` error, performs no vector search and makes no
LLM call, and the failure maps to an HTTP error status (≥ 400). -/
theorem query_empty_question (emb : String → List ℚ) (idx : List VecEntry)
    (llm : Option (LLMCall → String)) (threshold : ℚ) (question : String)
    (top_k : Nat) (use_rag : Bool) (h : isBlank question = true) :
    query emb idx llm threshold question top_k use_rag =
        (.error .EmptyQuestion, ⟨false, none⟩) ∧
      400 ≤ httpStatusOf .EmptyQuestion := by
  constructor
  · unfold query
    rw [if_pos h]
  · exact le_refl 400

/-- Witness for C5: the empty question. -/
theorem query_empty_question_witness :
    isBlank "" = true ∧
      query (fun _ => [1]) [] (some (fun _ => "a")) 0 "" 5 true =
        (.error .EmptyQuestion, ⟨false, none⟩) :=
  ⟨by decide,
   (query_empty_question (fun _ => [1]) [] (some (fun _ => "a")) 0 "" 5 true
     (by decide)).1⟩

/-- Claim C6: for every non-blank question, `query` with `use_rag = false`
never invokes the Vector Index (the trace records no search), the LLM
Provider is called with only the question (every recorded call is
`plain question`), and the returned sources list is empty. -/
theorem query_no_rag (emb : String → List ℚ) (idx : List VecEntry)
    (llm : Option (LLMCall → String)) (threshold : ℚ) (question : String)
    (top_k : Nat) (h : isBlank question = false) :
    (query emb idx llm threshold question top_k false).2.searchInvoked = false ∧
      (∀ c, (query emb idx llm threshold question top_k false).2.llmCall = some c →
        c = .plain question) ∧
      (∀ a srcs,
        (query emb idx llm threshold question top_k false).1 = .ok (a, srcs) →
          srcs = []) := by
  unfold query
  rw [if_neg (by rw [h]; exact Bool.false_ne_true)]
  cases llm with
  | none =>
    refine ⟨rfl, ?_, ?_⟩
    · intro c hc
      cases hc
    · intro a srcs ha
      cases ha
  | some f =>
    refine ⟨rfl, ?_, ?_⟩
    · intro c hc
      cases hc
      rfl
    · intro a srcs ha
      cases ha
      rfl

/-- Witness for C6 at a concrete question. -/
theorem query_no_rag_witness :
    isBlank "hi" = false ∧
      (query (fun _ => [1]) [⟨"a.pdf", 0, 0, "x", [1]⟩] (some (fun _ => "ans"))
          0 "hi" 5 false).2.searchInvoked = false :=
  ⟨by decide,
   (query_no_rag (fun _ => [1]) [⟨"a.pdf", 0, 0, "x", [1]⟩]
     (some (fun _ => "ans")) 0 "hi" 5 (by decide)).1⟩

/-- Claim C8: two sequential save-session calls, the second using the
session id returned by the first and appending exactly one message,
leave the session loadable with both message lists in their original
order and `message_count` incremented by exactly 1; the message order
within one session is the save order received. -/
theorem save_save_load (st : ChatStore) (msgs : List ChatMessage)
    (m : ChatMessage) (t1 t2 : Nat) :
    (saveSession (saveSession st none msgs t1).2
          (some (saveSession st none msgs t1).1) (msgs ++ [m]) t2).1 =
        (saveSession st none msgs t1).1 ∧
      loadMessages (saveSession st none msgs t1).2
          (saveSession st none msgs t1).1 = some msgs ∧
      loadMessages
          (saveSession (saveSession st none msgs t1).2
            (some (saveSession st none msgs t1).1) (msgs ++ [m]) t2).2
          (saveSession st none msgs t1).1 = some (msgs ++ [m]) ∧
      messageCount
          (saveSession (saveSession st none msgs t1).2
            (some (saveSession st none msgs t1).1) (msgs ++ [m]) t2).2
          (saveSession st none msgs t1).1 = some (msgs.length + 1) ∧
      messageCount (saveSession st none msgs t1).2
          (saveSession st none msgs t1).1 = some msgs.length := by
  refine ⟨rfl, ?_, ?_, ?_, ?_⟩ <;>
    simp [saveSession, replaceFirst, loadMessages, findSession, messageCount,
      List.find?]

/-- Claim C9: every file of the snapshot `saveUploadState` sends to
`updateUploadState` has status `pending`, `processing` or `error` (never
`completed`), and is exactly the projection of a tracked file — id, name,
size, status, progress, error, result, step metadata and a `fileInfo`
record; the `SavedFile` type has no payload field, so the raw `File`
object is never included.  When no file has one of the three statuses,
the empty list is sent, clearing the server-side state. -/
theorem saveUploadState_active_only (now : Nat) (files : List TrackedFile) :
    (∀ g ∈ saveUploadState now files,
        (g.status = .pending ∨ g.status = .processing ∨ g.status = .error) ∧
          g.status ≠ .completed ∧
          ∃ f ∈ files, g = saveProjection now f) ∧
      ((∀ f ∈ files, isActiveStatus f.status = false) →
        saveUploadState now files = []) := by
  constructor
  · intro g hg
    rcases List.mem_map.mp hg with ⟨f, hf, rfl⟩
    rcases List.mem_filter.mp hf with ⟨hfmem, hact⟩
    have hstat : (saveProjection now f).status = f.status := rfl
    refine ⟨?_, ?_, ⟨f, hfmem, rfl⟩⟩
    · rw [hstat]
      cases h : f.status with
      | pending => exact Or.inl rfl
      | processing => exact Or.inr (Or.inl rfl)
      | error => exact Or.inr (Or.inr rfl)
      | completed =>
        rw [h] at hact
        simp [isActiveStatus] at hact
    · rw [hstat]
      intro hcomp
      rw [hcomp] at hact
      simp [isActiveStatus] at hact
  · intro hall
    have hnil : files.filter (fun f => isActiveStatus f.status) = [] :=
      List.filter_eq_nil_iff.mpr (fun f hf => by
        rw [hall f hf]
        exact Bool.false_ne_true)
    unfold saveUploadState
    rw [hnil]
    rfl

/-- Witness for C9: a list holding only a completed file is saved as the
empty snapshot. -/
theorem saveUploadState_witness :
    saveUploadState 0
        [⟨1, "a.pdf", 3, .completed, 100, none, none, 4, [], none,
          ⟨"a.pdf", 3, "application/pdf", 0⟩⟩] = [] :=
  (saveUploadState_active_only 0
    [⟨1, "a.pdf", 3, .completed, 100, none, none, 4, [], none,
      ⟨"a.pdf", 3, "application/pdf", 0⟩⟩]).2 (by decide)

/-- Counterexample to claim C2 as stated.  The claim asserts that the
rewriting of payload-less `pending` files to `error` "is performed by the
manager itself, not by the caller".  The caller — the upload page's
`initializeSecureUploadState` (UploadPage.js lines 101–138) — receives
such a file from `get(state_id)` still in status `pending` (the restore
map keeps the saved status and sets `file: null`) and then itself
rewrites it to `error` with the invalidated-payload reason in a deferred
`setFiles` pass: the rewriting lives in the caller's code. -/
theorem upload_get_rewrite_counterexample :
    (restoreFile ⟨1, "doc.pdf", 100, .pending, 0, none, none, some 0, none,
        ⟨"doc.pdf", 100, "application/pdf", 0⟩⟩).status = FileStatus.pending ∧
      (restoreFile ⟨1, "doc.pdf", 100, .pending, 0, none, none, some 0, none,
        ⟨"doc.pdf", 100, "application/pdf", 0⟩⟩).file = none ∧
      invalidateOne (restoreFile ⟨1, "doc.pdf", 100, .pending, 0, none, none,
          some 0, none, ⟨"doc.pdf", 100, "application/pdf", 0⟩⟩) ≠
        restoreFile ⟨1, "doc.pdf", 100, .pending, 0, none, none, some 0, none,
          ⟨"doc.pdf", 100, "application/pdf", 0⟩⟩ ∧
      (invalidateOne (restoreFile ⟨1, "doc.pdf", 100, .pending, 0, none, none,
          some 0, none, ⟨"doc.pdf", 100, "application/pdf", 0⟩⟩)).status =
        FileStatus.error ∧
      (invalidateOne (restoreFile ⟨1, "doc.pdf", 100, .pending, 0, none, none,
          some 0, none, ⟨"doc.pdf", 100, "application/pdf", 0⟩⟩)).error =
        some invalidMsg := by
  decide

/-- Claim C2 (amended): after the upload page's restore-and-invalidate
pass, no file is left `pending` (every restored file lacks a payload, so
every restored `pending` file is rewritten), and the rewrite applied to a
restored `pending` file is exactly status `error` with the
invalidated-payload reason — performed by the caller, the upload page,
not by the Upload-State Manager. -/
theorem restore_invalidates_stale (resp : List SavedFile) :
    (∀ g ∈ restoreThenInvalidate resp, g.status ≠ .pending) ∧
      (∀ f ∈ restoreActive resp,
        f.file = none ∧
          (f.status = .pending →
            invalidateOne f =
              { f with status := .error, error := some invalidMsg })) := by
  constructor
  · intro g hg
    rcases List.mem_map.mp hg with ⟨f, hf, rfl⟩
    rcases List.mem_map.mp hf with ⟨sf, hsf, rfl⟩
    have hfile : (restoreFile sf).file = none := rfl
    by_cases hp : (restoreFile sf).status = FileStatus.pending
    · have hrw : invalidateOne (restoreFile sf) =
          { restoreFile sf with status := .error, error := some invalidMsg } := by
        simp [invalidateOne, hp, hfile]
      rw [hrw]
      simp
    · have hrw : invalidateOne (restoreFile sf) = restoreFile sf := by
        simp [invalidateOne, hp]
      rw [hrw]
      exact hp
  · intro f hf
    rcases List.mem_map.mp hf with ⟨sf, hsf, rfl⟩
    refine ⟨rfl, ?_⟩
    intro hp
    have hfile : (restoreFile sf).file = none := rfl
    simp [invalidateOne, hp, hfile]

/-- Witness for the amended C2: the concrete restored pending file of the
counterexample is not `pending` after the client's pass. -/
theorem restore_invalidates_witness :
    (invalidateOne (restoreFile ⟨1, "doc.pdf", 100, .pending, 0, none, none,
        some 0, none, ⟨"doc.pdf", 100, "application/pdf", 0⟩⟩)).status ≠
      FileStatus.pending :=
  (restore_invalidates_stale [⟨1, "doc.pdf", 100, .pending, 0, none, none,
      some 0, none, ⟨"doc.pdf", 100, "application/pdf", 0⟩⟩]).1 _ (by decide)

/-- Claim C10: with non-blank input and no request in flight,
`handleSendMessage` issues the request and appends exactly two messages —
the trimmed user message followed by one bot message whose content is the
answer on success (when the response carries a non-empty answer) and the
fixed error text on request failure — so the user's message is preserved
even when the request fails; with blank input or a request in flight the
state is unchanged and no request is issued. -/
theorem handleSendMessage_behavior (st : ChatState) (outcome : QueryOutcome)
    (now : Nat) :
    ((isBlank st.inputValue = true ∨ st.isLoading = true) →
        handleSendMessage st outcome now = (st, false)) ∧
      (isBlank st.inputValue = false → st.isLoading = false →
        (handleSendMessage st outcome now).2 = true ∧
          ∃ bot : UiMessage,
            (handleSendMessage st outcome now).1.messages =
                st.messages ++
                  [⟨now, .user, jsTrim st.inputValue, [], now⟩, bot] ∧
              bot.type = .bot ∧
              (outcome = .fail → bot.content = requestErrorText) ∧
              (∀ a srcs, outcome = .ok (some a) srcs → a ≠ "" →
                bot.content = a)) := by
  constructor
  · intro h
    have hcond : (isBlank st.inputValue || st.isLoading) = true := by
      rcases h with h | h <;> simp [h]
    unfold handleSendMessage
    rw [if_pos hcond]
  · intro hb hl
    have hcond : ¬((isBlank st.inputValue || st.isLoading) = true) := by
      simp [hb, hl]
    unfold handleSendMessage
    rw [if_neg hcond]
    cases outcome with
    | ok ans srcs =>
      refine ⟨rfl,
        ⟨⟨now + 1, .bot, jsOrString ans fallbackAnswer, srcs.getD [], now⟩,
          rfl, rfl, ?_, ?_⟩⟩
      · intro hfail
        cases hfail
      · intro a s hok hne
        cases hok
        simp only [jsOrString]
        rw [if_neg (by simpa using hne)]
    | fail =>
      refine ⟨rfl,
        ⟨⟨now + 1, .bot, requestErrorText, [], now⟩, rfl, rfl, ?_, ?_⟩⟩
      · intro _
        rfl
      · intro a s hok
        cases hok

/-- Witness for C10: a concrete send with input `" hi "` appends the
trimmed user message and the bot answer. -/
theorem handleSendMessage_witness :
    (handleSendMessage ⟨[], " hi ", false⟩ (.ok (some "ans") none) 5).2 = true ∧
      (handleSendMessage ⟨[], " hi ", false⟩
          (.ok (some "ans") none) 5).1.messages =
        [⟨5, .user, "hi", [], 5⟩, ⟨6, .bot, "ans", [], 5⟩] :=
  ⟨((handleSendMessage_behavior ⟨[], " hi ", false⟩ (.ok (some "ans") none) 5).2
      (by decide) rfl).1,
   by decide⟩

end LocalRAG
